import Mathlib

/-!
# Verification of `train/epoch_train_functions.py`

A shallow embedding of the per-epoch training and validation functions of the
genecis repository, together with theorems settling the specification claims.

Modelling conventions:
* Tensors are functions `Fin B → Fin D → ℝ` (a batch of `B` feature rows of
  dimension `D`); float arithmetic is modelled by real arithmetic.
* The backbone (`clip_model.encode_image` / `encode_text`) and the fusion module
  (`combiner`) are opaque collaborators; a batch is therefore represented by the
  feature tensors they produce (`StepInput`).
* The distributed world is modelled with a single worker, so the feature gather
  is the identity and the gathered batch size equals the local batch size.
* The backward pass, gradient clipping and the mixed-precision optimizer step
  only mutate model parameters; they are modelled by one opaque parameter-update
  function `optStep` threaded through the training loop.
-/

namespace Genecis

noncomputable section

open Classical

/-- Torch's default `eps` of `torch.nn.functional.normalize` (`1e-12`). -/
def normEps : ℝ := 1 / 10 ^ 12

/-- `torch.nn.functional.normalize(v, p=2, dim=-1)`: divide each row by
`max(‖row‖₂, eps)`. -/
def l2normalize {D : ℕ} (v : Fin D → ℝ) : Fin D → ℝ :=
  fun j => v j / max (Real.sqrt (∑ k, v k ^ 2)) normEps

/-- `torch.argmax(row, dim=-1)`: index of the first maximal entry of a row
(`none` only for an empty row). -/
def argmaxRow {N : ℕ} (row : Fin N → ℝ) : Option (Fin N) :=
  (List.finRange N).foldl
    (fun best j =>
      match best with
      | none => some j
      | some b => if row b < row j then some j else some b)
    none

/-- `torch.arange(0, B)` used as the class-target vector: the target of row `i`
is column `i`. -/
def arangeTargets (B : ℕ) : Fin B → Fin B :=
  fun i => i

/-- `torch.nn.CrossEntropyLoss()` applied to a logit matrix and integer class
targets, with the default mean reduction: the mean over rows of
`logsumexp(row) - row[target]`. -/
def crossEntropyLoss {B N : ℕ} (logits : Fin B → Fin N → ℝ)
    (targets : Fin B → Fin N) : ℝ :=
  (∑ i, (Real.log (∑ j, Real.exp (logits i j)) - logits i (targets i))) / B

/-- Modelled from the spec: `utils.gen_utils.AverageMeter` is not under `src/`.
The spec describes a "running-average accumulator" that "holds a running sum and
count, updated per step", whose reported mean after updates `(v1,n1),…,(vm,nm)`
equals `Σ(vi·ni)/Σni`. -/
structure AverageMeter where
  sum : ℝ
  count : ℝ

/-- A fresh meter, as instantiated at the start of each epoch. -/
def AverageMeter.init : AverageMeter := ⟨0, 0⟩

/-- `meter.update(val, n)`: add `val·n` to the running sum and `n` to the count. -/
def AverageMeter.update (m : AverageMeter) (val : ℝ) (n : ℕ) : AverageMeter :=
  ⟨m.sum + val * n, m.count + n⟩

/-- The weighted running mean currently held by the meter. -/
def AverageMeter.avg (m : AverageMeter) : ℝ := m.sum / m.count

/-- Modelled from the spec: `utils.dist_utils.gather_meter_vals` is not under
`src/`. The spec: "every meter's value is reduced across all parallel workers
… and returned as a name→scalar mapping"; modelled for a single worker, where
the reduction reports the meter's weighted running mean. -/
def gather_meter_vals (m : AverageMeter) : ℝ := m.avg

/-- Modelled from the spec: `utils.dist_utils.all_gather_batch_with_grad` is not
under `src/`. The spec glossary: "cross-worker concatenation of tensors that
preserves each worker's contribution to the backward pass"; modelled for a
single worker, where the gather is the identity on the gathered tensors. -/
def all_gather_batch_with_grad {α : Type} (tensors : α) : α := tensors

/-- Modelled from the spec: `utils.metric_utils.get_recall` is not under `src/`.
The spec glossary: "Recall@K: fraction of queries whose true match appears among
the top-K ranked candidates". Argument shapes follow the call site
`get_recall(sort_idxs[:, :k], targets)`: a per-row list of ranked candidate
indices and the per-row true target index. -/
def get_recall {B N : ℕ} (topkIdxs : Fin B → List (Fin N))
    (targets : Fin B → Fin N) : ℝ :=
  ((Finset.univ.filter fun i => targets i ∈ topkIdxs i).card : ℝ) / B

/-- One batch of the loader, represented by the outputs of the opaque
collaborators: the three `encode_image` chunks, the `encode_text` output, and
the raw `combiner(ref_feats, caption_feats)` output, each `B × D`. -/
structure StepInput (D : ℕ) where
  B : ℕ
  refFeats : Fin B → Fin D → ℝ
  targetFeats : Fin B → Fin D → ℝ
  textDistractorFeats : Fin B → Fin D → ℝ
  captionFeats : Fin B → Fin D → ℝ
  combinedRaw : Fin B → Fin D → ℝ

/-- The logit matrix of one training batch (`train_one_epoch`, lines 59–67):
L2-normalize the combined and target features, gather them, and form
`args.lamda * combined_feats @ target_feats.t()`. -/
def trainLogits {D : ℕ} (lamda : ℝ) (inp : StepInput D) :
    Fin inp.B → Fin inp.B → ℝ :=
  let combined_feats := fun i => l2normalize (inp.combinedRaw i)
  let target_feats := fun i => l2normalize (inp.targetFeats i)
  let gathered := all_gather_batch_with_grad (combined_feats, target_feats)
  fun i j => lamda * ∑ d, gathered.1 i d * gathered.2 j d

/-- `total_loss` of one training batch (line 69): cross-entropy of the logits
against `torch.arange(0, B)`. -/
def trainBatchLoss {D : ℕ} (lamda : ℝ) (inp : StepInput D) : ℝ :=
  crossEntropyLoss (trainLogits lamda inp) (arangeTargets inp.B)

/-- `train_acc` of one training batch (line 72):
`(logits.argmax(dim=-1) == targets).float().mean()`. -/
def trainBatchAcc {D : ℕ} (lamda : ℝ) (inp : StepInput D) : ℝ :=
  (∑ i, if argmaxRow (fun j => trainLogits lamda inp i j)
      = some (arangeTargets inp.B i) then (1 : ℝ) else 0) / inp.B

/-- The two feature-distance metrics of one training batch (lines 77–86), as the
pair `(text_combiner_dist.mean(), img_combiner_dist.mean())`: re-normalize the
gathered reference and caption features and take the mean of their similarity
matrices against the gathered combined features. -/
def trainDistMetrics {D : ℕ} (inp : StepInput D) : ℝ × ℝ :=
  let combined_feats := fun i => l2normalize (inp.combinedRaw i)
  let ref_feats_norm := fun i => l2normalize (inp.refFeats i)
  let caption_feats_norm := fun i => l2normalize (inp.captionFeats i)
  let img_combiner_dist := fun i j => ∑ d, ref_feats_norm i d * combined_feats j d
  let text_combiner_dist := fun i j => ∑ d, caption_feats_norm i d * combined_feats j d
  ((∑ i, ∑ j, text_combiner_dist i j) / ((inp.B : ℝ) * inp.B),
   (∑ i, ∑ j, img_combiner_dist i j) / ((inp.B : ℝ) * inp.B))

/-- The logit matrix of one validation batch (`val_one_epoch`, lines 140–148);
the same computation as the training one. -/
def valLogits {D : ℕ} (lamda : ℝ) (inp : StepInput D) :
    Fin inp.B → Fin inp.B → ℝ :=
  let combined_feats := fun i => l2normalize (inp.combinedRaw i)
  let target_feats := fun i => l2normalize (inp.targetFeats i)
  let gathered := all_gather_batch_with_grad (combined_feats, target_feats)
  fun i j => lamda * ∑ d, gathered.1 i d * gathered.2 j d

/-- `total_loss` of one validation batch (line 150). -/
def valBatchLoss {D : ℕ} (lamda : ℝ) (inp : StepInput D) : ℝ :=
  crossEntropyLoss (valLogits lamda inp) (arangeTargets inp.B)

/-- `val_acc` of one validation batch (line 153). -/
def valBatchAcc {D : ℕ} (lamda : ℝ) (inp : StepInput D) : ℝ :=
  (∑ i, if argmaxRow (fun j => valLogits lamda inp i j)
      = some (arangeTargets inp.B i) then (1 : ℝ) else 0) / inp.B

/-- `sort_idxs` of one validation batch (line 159): each row of the logit matrix
sorted by descending logit value, as a list of column indices. -/
def valSortIdxs {D : ℕ} (lamda : ℝ) (inp : StepInput D)
    (i : Fin inp.B) : List (Fin inp.B) :=
  (List.finRange inp.B).mergeSort
    (fun j k => decide (valLogits lamda inp i k ≤ valLogits lamda inp i j))

/-- `recall_k` of one validation batch (line 163):
`get_recall(sort_idxs[:, :k], targets)`. -/
def valRecallAtK {D : ℕ} (lamda : ℝ) (inp : StepInput D) (k : ℕ) : ℝ :=
  get_recall (fun i => (valSortIdxs lamda inp i).take k) (arangeTargets inp.B)

/-- The configuration object, restricted to the fields `train_one_epoch` and
`val_one_epoch` read (the gradient scaler is folded into the opaque parameter
update). -/
structure Args where
  base_contrastive : ℤ
  finetune_mode : Option String
  clip_grad_norm : Bool
  lamda : ℝ

/-- The mutable state of the training loop: the four average meters and the
parameters of both models (mutated by the optimizer step each batch). -/
structure TrainLoopState (P Q : Type) where
  base_loss : AverageMeter
  base_acc : AverageMeter
  combiner_text_feat_dist : AverageMeter
  combiner_image_feat_dist : AverageMeter
  clipParams : P
  combinerParams : Q

/-- One iteration of the training loop (lines 40–96): compute the batch loss,
accuracy, and feature-distance metrics, update each meter with the gathered
batch size, and apply the opaque backward/clip/optimizer parameter update. -/
def trainBatchStep {D : ℕ} {P Q : Type} (args : Args) (optStep : P × Q → P × Q)
    (s : TrainLoopState P Q) (inp : StepInput D) : TrainLoopState P Q :=
  let total_loss := trainBatchLoss args.lamda inp
  let train_acc := trainBatchAcc args.lamda inp
  let dists := trainDistMetrics inp
  let stepped := optStep (s.clipParams, s.combinerParams)
  { base_loss := s.base_loss.update total_loss inp.B
    base_acc := s.base_acc.update train_acc inp.B
    combiner_text_feat_dist := s.combiner_text_feat_dist.update dists.1 inp.B
    combiner_image_feat_dist := s.combiner_image_feat_dist.update dists.2 inp.B
    clipParams := stepped.1
    combinerParams := stepped.2 }

/-- The observable result of an epoch function: the returned name→scalar metric
mapping (in insertion order) together with the model state the call leaves
behind (parameters and train/eval mode flags). -/
structure EpochResult (P Q : Type) where
  metrics : List (String × ℝ)
  clipParams : P
  combinerParams : Q
  clipTraining : Bool
  combinerTraining : Bool

/-- `train_one_epoch` (lines 13–99): assert `args.base_contrastive == 1` before
anything else; set the backbone to train mode iff `args.finetune_mode` is not
`None` and the combiner to train mode; fold the training step over the loader;
return the gathered meter values under the four metric names. The failed assert
is modelled by an `Except.error` raised before any batch is processed or any
meter or parameter is touched. -/
def train_one_epoch {D : ℕ} {P Q : Type} (clipParams : P) (combinerParams : Q)
    (trainloader : List (StepInput D)) (optStep : P × Q → P × Q) (args : Args) :
    Except Unit (EpochResult P Q) :=
  if args.base_contrastive = 1 then
    let init : TrainLoopState P Q :=
      ⟨.init, .init, .init, .init, clipParams, combinerParams⟩
    let final := trainloader.foldl (trainBatchStep args optStep) init
    .ok
      { metrics :=
          [("base_loss", gather_meter_vals final.base_loss),
           ("base_acc", gather_meter_vals final.base_acc),
           ("combiner_text_feat_dist", gather_meter_vals final.combiner_text_feat_dist),
           ("combiner_image_feat_dist", gather_meter_vals final.combiner_image_feat_dist)]
        clipParams := final.clipParams
        combinerParams := final.combinerParams
        clipTraining := args.finetune_mode.isSome
        combinerTraining := true }
  else
    .error ()

/-- The mutable state of the validation loop: the loss and accuracy meters and,
for each configured k, the recall meter stored under the key `Recall @ k`. -/
structure ValLoopState where
  base_loss : AverageMeter
  base_acc : AverageMeter
  recallMeters : ℕ → AverageMeter

/-- One iteration of the validation loop (lines 123–164): compute the batch
loss and accuracy, update their meters with the gathered batch size, and for
each configured k update that k's recall meter with the batch Recall@K. -/
def valBatchStep {D : ℕ} (args : Args) (recall_topk : List ℕ)
    (s : ValLoopState) (inp : StepInput D) : ValLoopState :=
  let total_loss := valBatchLoss args.lamda inp
  let val_acc := valBatchAcc args.lamda inp
  { base_loss := s.base_loss.update total_loss inp.B
    base_acc := s.base_acc.update val_acc inp.B
    recallMeters :=
      recall_topk.foldl
        (fun ms k =>
          Function.update ms k ((ms k).update (valRecallAtK args.lamda inp k) inp.B))
        s.recallMeters }

/-- `val_one_epoch` (lines 104–167): set both models to eval mode, fold the
validation step over the loader under `torch.no_grad()` (no parameter is ever
updated), and return the gathered meter values under `base_loss`, `base_acc`
and `Recall @ k` for each configured k (the Python default of `recall_topk` is
`(1, 5, 10)`; the configured ks are assumed distinct, as a Python dict keyed by
`f-string` holds one meter per distinct k). -/
def val_one_epoch {D : ℕ} {P Q : Type} (clipParams : P) (combinerParams : Q)
    (valloader : List (StepInput D)) (args : Args) (recall_topk : List ℕ) :
    EpochResult P Q :=
  let init : ValLoopState := ⟨.init, .init, fun _ => .init⟩
  let final := valloader.foldl (valBatchStep args recall_topk) init
  { metrics :=
      [("base_loss", gather_meter_vals final.base_loss),
       ("base_acc", gather_meter_vals final.base_acc)]
        ++ recall_topk.map
            (fun k => ("Recall @ " ++ toString k, gather_meter_vals (final.recallMeters k)))
    clipParams := clipParams
    combinerParams := combinerParams
    clipTraining := false
    combinerTraining := false }

/-- Following the spec's words, for comparison with the loss the code computes:
a *symmetric* contrastive loss over a square logit matrix with diagonal
positives averages the row-wise (combined→target) and column-wise
(target→combined, i.e. transposed-logits) cross-entropies. -/
def specSymmetricContrastiveLoss {B : ℕ} (logits : Fin B → Fin B → ℝ) : ℝ :=
  (crossEntropyLoss logits (arangeTargets B) +
      crossEntropyLoss (fun i j => logits j i) (arangeTargets B)) / 2

/-- Concrete combined-feature rows for the loss counterexample: the 2 × 2
identity (two unit rows). -/
def cxCombined : Fin 2 → Fin 2 → ℝ :=
  fun i j => if i = j then 1 else 0

/-- Concrete target-feature rows for the loss counterexample: the unit rows
`(1, 0)` and `(3/5, 4/5)`. -/
def cxTarget : Fin 2 → Fin 2 → ℝ :=
  fun i j => if i = 0 then (if j = 0 then 1 else 0) else (if j = 0 then 3 / 5 else 4 / 5)

/-- A concrete batch of size 2 in feature dimension 2 whose logit matrix at
`lamda = 5` is `[[5, 3], [0, 4]]`. -/
def cxInput : StepInput 2 :=
  ⟨2, fun _ _ => 0, cxTarget, fun _ _ => 0, fun _ _ => 0, cxCombined⟩

/-- A trivial batch of size 1 in feature dimension 1 (all features zero), used
to instantiate hypotheses of the recall theorems. -/
def trivInput : StepInput 1 :=
  ⟨1, fun _ _ => 0, fun _ _ => 0, fun _ _ => 0, fun _ _ => 0, fun _ _ => 0⟩

/-- C3: `train_one_epoch` asserts `args.base_contrastive == 1` before anything
else: for every model state, loader and optimizer, it fails immediately exactly
when `base_contrastive ≠ 1` (the error result is produced before any batch is
processed or any meter or parameter is mutated — it is independent of the
loader and carries no updated state), and when `base_contrastive = 1` the check
passes and the epoch returns a result. -/
theorem train_one_epoch_asserts_base_contrastive {D : ℕ} {P Q : Type}
    (clipParams : P) (combinerParams : Q) (trainloader : List (StepInput D))
    (optStep : P × Q → P × Q) (args : Args) :
    (train_one_epoch clipParams combinerParams trainloader optStep args
        = Except.error () ↔ args.base_contrastive ≠ 1) ∧
    (args.base_contrastive = 1 →
      ∃ r, train_one_epoch clipParams combinerParams trainloader optStep args
        = Except.ok r) := by
  unfold train_one_epoch
  by_cases h : args.base_contrastive = 1 <;> simp [h]

/-- Witness for C3 at a concrete configuration with `base_contrastive = 1`. -/
theorem train_one_epoch_asserts_base_contrastive_witness :
    (Args.mk 1 none false 0).base_contrastive = 1 ∧
    ∃ r, train_one_epoch (D := 1) () () [] id (Args.mk 1 none false 0)
      = Except.ok r :=
  ⟨rfl,
    (train_one_epoch_asserts_base_contrastive () () [] id (Args.mk 1 none false 0)).2 rfl⟩

/-- C9: `val_one_epoch` imposes no precondition on `args.base_contrastive`:
its result type has no failure path, and replacing `base_contrastive` by any
value (including values fatal to `train_one_epoch`) leaves the result of the
whole validation epoch unchanged. -/
theorem val_one_epoch_no_base_contrastive_check {D : ℕ} {P Q : Type}
    (clipParams : P) (combinerParams : Q) (valloader : List (StepInput D))
    (args : Args) (recall_topk : List ℕ) (b : ℤ) :
    val_one_epoch clipParams combinerParams valloader
        (Args.mk b args.finetune_mode args.clip_grad_norm args.lamda) recall_topk
      = val_one_epoch clipParams combinerParams valloader args recall_topk :=
  rfl

/-- C8: `val_one_epoch` is read-only on the models: it returns both parameter
sets unchanged (it takes no optimizer and performs no parameter update), its
only model side effect is setting both mode flags to eval, and its per-batch
logit/loss/accuracy pipeline is the same function as the training one. -/
theorem val_one_epoch_read_only {D : ℕ} {P Q : Type}
    (clipParams : P) (combinerParams : Q) (valloader : List (StepInput D))
    (args : Args) (recall_topk : List ℕ) :
    ((val_one_epoch clipParams combinerParams valloader args recall_topk).clipParams
        = clipParams ∧
      (val_one_epoch clipParams combinerParams valloader args recall_topk).combinerParams
        = combinerParams) ∧
    ((val_one_epoch clipParams combinerParams valloader args recall_topk).clipTraining
        = false ∧
      (val_one_epoch clipParams combinerParams valloader args recall_topk).combinerTraining
        = false) ∧
    (∀ (lamda : ℝ) (inp : StepInput D),
      valLogits lamda inp = trainLogits lamda inp ∧
      valBatchLoss lamda inp = trainBatchLoss lamda inp ∧
      valBatchAcc lamda inp = trainBatchAcc lamda inp) :=
  ⟨⟨rfl, rfl⟩, ⟨rfl, rfl⟩, fun _ _ => ⟨rfl, rfl, rfl⟩⟩

/-- C4: in every step of both epoch functions, the value recorded into the
`base_acc` meter equals the fraction of rows of the logit matrix whose argmax
column index equals the row index. -/
theorem batch_acc_eq_argmax_diagonal_fraction {D : ℕ} (lamda : ℝ)
    (inp : StepInput D) :
    trainBatchAcc lamda inp =
      ((Finset.univ.filter fun i =>
        argmaxRow (fun j => trainLogits lamda inp i j) = some i).card : ℝ) / inp.B ∧
    valBatchAcc lamda inp =
      ((Finset.univ.filter fun i =>
        argmaxRow (fun j => valLogits lamda inp i j) = some i).card : ℝ) / inp.B := by
  constructor <;>
  · simp only [trainBatchAcc, valBatchAcc, arangeTargets]
    rw [Finset.sum_boole]

/-- C10: in every training step, the value recorded into
`combiner_image_feat_dist` (resp. `combiner_text_feat_dist`) is the mean over
all `B × B` pairs `(i, j)` of the dot product between the re-L2-normalized
gathered reference (resp. caption) feature `i` and the gathered (normalized)
combined feature `j`. -/
theorem train_dist_metrics_mean_over_all_pairs {D : ℕ} (inp : StepInput D) :
    (trainDistMetrics inp).2 =
      (∑ i, ∑ j, ∑ d,
        l2normalize (inp.refFeats i) d * l2normalize (inp.combinedRaw j) d) /
        ((inp.B : ℝ) * inp.B) ∧
    (trainDistMetrics inp).1 =
      (∑ i, ∑ j, ∑ d,
        l2normalize (inp.captionFeats i) d * l2normalize (inp.combinedRaw j) d) /
        ((inp.B : ℝ) * inp.B) :=
  ⟨rfl, rfl⟩

/-- C7: a meter updated with `(v1,n1), …, (vm,nm)` reports (through
`gather_meter_vals`, as at the `return` sites of both epoch functions) the
batch-size-weighted running mean `Σ(vi·ni)/Σni`. -/
theorem averageMeter_reports_weighted_mean (updates : List (ℝ × ℕ)) :
    gather_meter_vals
        (updates.foldl (fun m u => m.update u.1 u.2) AverageMeter.init) =
      (updates.map fun u => u.1 * (u.2 : ℝ)).sum
        / (updates.map fun u => (u.2 : ℝ)).sum := by
  have key : ∀ (l : List (ℝ × ℕ)) (m : AverageMeter),
      (l.foldl (fun m u => m.update u.1 u.2) m).sum
          = m.sum + (l.map fun u => u.1 * (u.2 : ℝ)).sum ∧
      (l.foldl (fun m u => m.update u.1 u.2) m).count
          = m.count + (l.map fun u => (u.2 : ℝ)).sum := by
    intro l
    induction l with
    | nil => intro m; simp
    | cons hd tl ih =>
      intro m
      rw [List.foldl_cons]
      refine ⟨?_, ?_⟩
      · rw [(ih (m.update hd.1 hd.2)).1, List.map_cons, List.sum_cons]
        show m.sum + hd.1 * (hd.2 : ℝ) + _ = _
        ring
      · rw [(ih (m.update hd.1 hd.2)).2, List.map_cons, List.sum_cons]
        show m.count + (hd.2 : ℝ) + _ = _
        ring
  have h := key updates AverageMeter.init
  unfold gather_meter_vals AverageMeter.avg
  rw [h.1, h.2]
  show (0 + _) / (0 + _) = _
  rw [zero_add, zero_add]

/-- C5: in `val_one_epoch`, for every batch and every configured K at least the
number of columns of the logit matrix, the per-batch Recall@K equals 1: the
top-K slice of each descending-sorted row is the whole row, so it contains the
row's true target index. -/
theorem val_recall_trivial_for_large_k {D : ℕ} (lamda : ℝ) (inp : StepInput D)
    (k : ℕ) (hB : 0 < inp.B) (hk : inp.B ≤ k) :
    valRecallAtK lamda inp k = 1 := by
  unfold valRecallAtK get_recall
  have htake : ∀ i : Fin inp.B,
      (valSortIdxs lamda inp i).take k = valSortIdxs lamda inp i := by
    intro i
    apply List.take_of_length_le
    simp only [valSortIdxs, List.length_mergeSort, List.length_finRange]
    exact hk
  have hmem : ∀ i ∈ Finset.univ,
      arangeTargets inp.B i ∈ (valSortIdxs lamda inp i).take k := by
    intro i _
    rw [htake i]
    simp [valSortIdxs, List.mem_mergeSort, List.mem_finRange]
  rw [Finset.filter_true_of_mem hmem, Finset.card_univ, Fintype.card_fin]
  exact div_self (Nat.cast_ne_zero.mpr hB.ne')

/-- Witness for C5 at a concrete batch of size 1 and K = 1. -/
theorem val_recall_trivial_for_large_k_witness :
    0 < trivInput.B ∧ trivInput.B ≤ 1 ∧ valRecallAtK 0 trivInput 1 = 1 :=
  ⟨by decide, by decide,
    val_recall_trivial_for_large_k 0 trivInput 1 (by decide) (by decide)⟩

/-- C6: in `val_one_epoch`, for a fixed batch the per-batch Recall@K is
monotonically non-decreasing in K: the top-K1 slice of each sorted row is
contained in the top-K2 slice whenever K1 ≤ K2. -/
theorem val_recall_monotone_in_k {D : ℕ} (lamda : ℝ) (inp : StepInput D)
    (k1 k2 : ℕ) (hk : k1 ≤ k2) :
    valRecallAtK lamda inp k1 ≤ valRecallAtK lamda inp k2 := by
  unfold valRecallAtK get_recall
  rw [div_eq_mul_inv, div_eq_mul_inv]
  apply mul_le_mul_of_nonneg_right _ (inv_nonneg.mpr (Nat.cast_nonneg _))
  have hsub : ∀ (l : List (Fin inp.B)) (a : Fin inp.B),
      a ∈ l.take k1 → a ∈ l.take k2 := by
    intro l a ha
    have h1 : l.take k1 = (l.take k2).take k1 := by
      rw [List.take_take, min_eq_left hk]
    rw [h1] at ha
    exact List.take_subset _ _ ha
  exact_mod_cast Finset.card_le_card
    (Finset.monotone_filter_right _ fun i hi => hsub _ _ hi)

/-- Witness for C6 at a concrete batch of size 1 and K1 = 1 ≤ K2 = 2. -/
theorem val_recall_monotone_in_k_witness :
    1 ≤ 2 ∧ valRecallAtK 0 trivInput 1 ≤ valRecallAtK 0 trivInput 2 :=
  ⟨by decide, val_recall_monotone_in_k 0 trivInput 1 2 (by decide)⟩

/-- C2 counterexample: with the default configured ks (1, 5, 10), the mapping
returned by `val_one_epoch` does not contain the training metric name
`combiner_text_feat_dist`: validation instantiates no feature-distance meters. -/
theorem val_metrics_lack_dist_keys_counterexample :
    "combiner_text_feat_dist" ∉
      (val_one_epoch (D := 1) () () [] (Args.mk 1 none false 0) [1, 5, 10]).metrics.map
        Prod.fst := by
  simp only [val_one_epoch, List.map_append, List.map_cons, List.map_map,
    List.mem_append, List.mem_cons, List.mem_map, Function.comp]
  decide

/-- C2 (amended): the mapping returned by `train_one_epoch` has exactly the
four training metric names (`base_loss`, `base_acc`, `combiner_text_feat_dist`,
`combiner_image_feat_dist`) and no recall key; the mapping returned by
`val_one_epoch` has exactly `base_loss` and `base_acc` plus one key
`Recall @ k` for each configured k in `recall_topk` (and in particular no
combiner feature-distance keys). -/
theorem epoch_metric_keys {D : ℕ} {P Q : Type} (clipParams : P)
    (combinerParams : Q) (loader : List (StepInput D)) (optStep : P × Q → P × Q)
    (args : Args) (recall_topk : List ℕ) (h : args.base_contrastive = 1) :
    (∃ r, train_one_epoch clipParams combinerParams loader optStep args
        = Except.ok r ∧
      r.metrics.map Prod.fst =
        ["base_loss", "base_acc", "combiner_text_feat_dist",
          "combiner_image_feat_dist"]) ∧
    (val_one_epoch clipParams combinerParams loader args recall_topk).metrics.map
        Prod.fst =
      ["base_loss", "base_acc"]
        ++ recall_topk.map (fun k => "Recall @ " ++ toString k) := by
  constructor
  · unfold train_one_epoch
    rw [if_pos h]
    exact ⟨_, rfl, rfl⟩
  · simp [val_one_epoch, Function.comp]

/-- Witness for C2 at a concrete configuration, empty loader and the default
ks. -/
theorem epoch_metric_keys_witness :
    (Args.mk 1 none false 0).base_contrastive = 1 ∧
    ((∃ r, train_one_epoch (D := 1) () () [] id (Args.mk 1 none false 0)
        = Except.ok r ∧
      r.metrics.map Prod.fst =
        ["base_loss", "base_acc", "combiner_text_feat_dist",
          "combiner_image_feat_dist"]) ∧
    (val_one_epoch (D := 1) () () [] (Args.mk 1 none false 0) [1, 5, 10]).metrics.map
        Prod.fst =
      ["base_loss", "base_acc"]
        ++ [1, 5, 10].map (fun k => "Recall @ " ++ toString k)) :=
  ⟨rfl, epoch_metric_keys () () [] id (Args.mk 1 none false 0) [1, 5, 10] rfl⟩

/-- A unit-norm row is a fixed point of `l2normalize`. -/
theorem l2normalize_of_unit {D : ℕ} (v : Fin D → ℝ) (h : ∑ k, v k ^ 2 = 1) :
    l2normalize v = v := by
  funext j
  unfold l2normalize
  rw [h, Real.sqrt_one, max_eq_left (by norm_num [normEps]), div_one]

/-- The logit matrix of the concrete counterexample batch at `lamda = 5` is
`[[5, 3], [0, 4]]`. -/
theorem cxLogits_eval :
    trainLogits 5 cxInput = fun (i j : Fin 2) =>
      if i = 0 then (if j = 0 then (5 : ℝ) else 3)
      else (if j = 0 then 0 else 4) := by
  have hcomb : ∀ i, l2normalize (cxCombined i) = cxCombined i := by
    intro i
    apply l2normalize_of_unit
    fin_cases i <;> norm_num [cxCombined, Fin.sum_univ_two]
  have htarg : ∀ i, l2normalize (cxTarget i) = cxTarget i := by
    intro i
    apply l2normalize_of_unit
    fin_cases i <;> norm_num [cxTarget, Fin.sum_univ_two]
  funext i j
  show 5 * (∑ d, l2normalize (cxCombined i) d * l2normalize (cxTarget j) d) = _
  rw [hcomb i, htarg j]
  fin_cases i <;> fin_cases j <;>
    norm_num [cxCombined, cxTarget, Fin.sum_univ_two,
      (by decide : (1 : Fin 2) ≠ 0)]

/-- C1 counterexample: at a concrete gathered batch of size 2 (unit feature
rows, `lamda = 5`, logit matrix `[[5, 3], [0, 4]]`) the recorded loss differs
from the symmetric contrastive loss of that logit matrix: the code computes
only the row-wise (combined→target) cross-entropy, which here is strictly
smaller than the symmetrized one. -/
theorem batch_loss_not_symmetric_counterexample :
    trainBatchLoss 5 cxInput
      ≠ specSymmetricContrastiveLoss (trainLogits 5 cxInput) := by
  have hL := cxLogits_eval
  have hxgt : (1 : ℝ) < Real.exp 1 := Real.one_lt_exp_iff.mpr one_pos
  have hxpos : (0 : ℝ) < Real.exp 1 := Real.exp_pos 1
  have hpow : ∀ n : ℕ, Real.exp ((n : ℝ)) = Real.exp 1 ^ n := by
    intro n
    rw [← Real.exp_nat_mul, mul_one]
  have h5 : Real.exp (5 : ℝ) = Real.exp 1 ^ 5 := by
    rw [show (5 : ℝ) = ((5 : ℕ) : ℝ) by norm_num, hpow]
  have h3 : Real.exp (3 : ℝ) = Real.exp 1 ^ 3 := by
    rw [show (3 : ℝ) = ((3 : ℕ) : ℝ) by norm_num, hpow]
  have h4 : Real.exp (4 : ℝ) = Real.exp 1 ^ 4 := by
    rw [show (4 : ℝ) = ((4 : ℕ) : ℝ) by norm_num, hpow]
  have hprod : (Real.exp 5 + Real.exp 3) * (Real.exp 0 + Real.exp 4)
      < (Real.exp 5 + Real.exp 0) * (Real.exp 3 + Real.exp 4) := by
    rw [Real.exp_zero, h5, h3, h4]
    have hfac : (Real.exp 1 ^ 5 + 1) * (Real.exp 1 ^ 3 + Real.exp 1 ^ 4)
        - (Real.exp 1 ^ 5 + Real.exp 1 ^ 3) * (1 + Real.exp 1 ^ 4)
        = Real.exp 1 ^ 4 * ((Real.exp 1 - 1) * (Real.exp 1 ^ 3 - 1)) := by
      ring
    have h1 : 0 < Real.exp 1 - 1 := by linarith
    have h2 : 0 < Real.exp 1 ^ 3 - 1 := by
      nlinarith [mul_pos h1 (mul_pos hxpos hxpos), mul_pos h1 hxpos, h1]
    have h3p : 0 < Real.exp 1 ^ 4 := pow_pos hxpos 4
    nlinarith [mul_pos h3p (mul_pos h1 h2)]
  have hloglt : Real.log (Real.exp 5 + Real.exp 3) + Real.log (Real.exp 0 + Real.exp 4)
      < Real.log (Real.exp 5 + Real.exp 0) + Real.log (Real.exp 3 + Real.exp 4) := by
    rw [← Real.log_mul (by positivity) (by positivity),
      ← Real.log_mul (by positivity) (by positivity)]
    exact Real.log_lt_log (by positivity) hprod
  have hCE : trainBatchLoss 5 cxInput
      = ((Real.log (Real.exp 5 + Real.exp 3) - 5)
          + (Real.log (Real.exp 0 + Real.exp 4) - 4)) / 2 := by
    show (∑ i : Fin 2, (Real.log (∑ j : Fin 2, Real.exp (trainLogits 5 cxInput i j))
        - trainLogits 5 cxInput i (arangeTargets 2 i))) / ((2 : ℕ) : ℝ) = _
    simp only [hL, arangeTargets, Fin.sum_univ_two]
    norm_num
  have hCEt : crossEntropyLoss (fun i j => trainLogits 5 cxInput j i) (arangeTargets 2)
      = ((Real.log (Real.exp 5 + Real.exp 0) - 5)
          + (Real.log (Real.exp 3 + Real.exp 4) - 4)) / 2 := by
    show (∑ i : Fin 2, (Real.log (∑ j : Fin 2, Real.exp (trainLogits 5 cxInput j i))
        - trainLogits 5 cxInput i (arangeTargets 2 i))) / ((2 : ℕ) : ℝ) = _
    simp only [hL, arangeTargets, Fin.sum_univ_two]
    norm_num
  have hspec : specSymmetricContrastiveLoss (trainLogits 5 cxInput)
      = (trainBatchLoss 5 cxInput
          + crossEntropyLoss (fun i j => trainLogits 5 cxInput j i) (arangeTargets 2)) / 2 :=
    rfl
  intro hEq
  rw [hspec, hCEt, hCE] at hEq
  linarith [hloglt, hEq]

/-- C1 (amended): in both `train_one_epoch` and `val_one_epoch` the contrastive
loss is the one-directional row-wise cross-entropy over the `B × B` logit
matrix obtained by multiplying the combined-by-target similarity matrix by
`args.lamda`, where the correct match (positive class) for `combined_feats[i]`
is `target_feats[i]`, i.e. the target label of row `i` is column `i` (no
transposed/column-wise term is added). -/
theorem batch_loss_is_cross_entropy_of_scaled_similarity {D : ℕ} (lamda : ℝ)
    (inp : StepInput D) :
    trainBatchLoss lamda inp =
      (∑ i, (Real.log (∑ j, Real.exp (lamda * ∑ d,
            l2normalize (inp.combinedRaw i) d * l2normalize (inp.targetFeats j) d))
          - lamda * ∑ d,
            l2normalize (inp.combinedRaw i) d * l2normalize (inp.targetFeats i) d))
        / inp.B ∧
    valBatchLoss lamda inp = trainBatchLoss lamda inp :=
  ⟨rfl, rfl⟩

end

end Genecis
